import Mathlib

/-!
Verification of the cat_logger date-based rotating log sink.

The development shallowly embeds the retention component
(`simple_logs/files.py`: `Directory.directory_exist`, `File.delete_file`,
`File.get_file_names`, `LoggingFile.filename_datetime`,
`LoggingFile.file_to_delete`) and the two emit state machines
(`simple_logs/handlers.py` and `meowlogs/handlers.py`,
`TimedRotatingFileHandler.emit`).

A directory is modelled as the list of entry names it holds, together with
flags describing which OS calls fail, and a ghost trace recording every name
passed to `delete_file`.  All files live in the sink's single directory, so a
path `directory + "/" + name` is identified by its basename `name`; the
constant directory prefix is dropped throughout.
-/

namespace CatLogger

/-- State of the log directory.  `files` are the entry names present,
`readable` says whether `os.listdir` succeeds, `mkdirErr` whether
`Path.mkdir` raises `OSError`, `locked` are names for which `os.remove`
raises an `OSError` other than non-existence, and `deleted` is a ghost trace
of every name passed to `delete_file`. -/
structure Dir where
  readable : Bool
  mkdirErr : Bool
  files : List String
  locked : List String
  deleted : List String
deriving DecidableEq

/-- Embedding of `os.listdir(self.directory)`: the raw OS call, which raises
`OSError` when the directory is unreadable or missing. -/
def os_listdir (d : Dir) : Except Unit (List String) :=
  if d.readable then .ok d.files else .error ()

/-- Embedding of `os.remove(os.path.join(self.directory, file))`: raises when
the file is absent (`FileNotFoundError`) or when the OS refuses the removal
(`locked`). -/
def os_remove (d : Dir) (file : String) : Except Unit Dir :=
  if file ∈ d.locked then .error ()
  else if file ∈ d.files then .ok { d with files := d.files.erase file }
  else .error ()

/-- Embedding of `Path(self.directory).mkdir(parents=True, exist_ok=True)`:
raises `OSError` on permission or path-type problems, otherwise makes the
directory available. -/
def os_mkdir (d : Dir) : Except Unit Dir :=
  if d.mkdirErr then .error () else .ok { d with readable := true }

/-- Embedding of `File.delete_file` before the `except OSError: pass` is
taken into account: the `try` body together with the swallowing handler,
written with an explicit exception channel so that "never raises" is a
statement, not a typing accident.  The ghost trace records the call in every
branch. -/
def delete_file_exc (d : Dir) (file : String) : Except Unit Dir :=
  match os_remove d file with
  | .ok d' => .ok { d' with deleted := d'.deleted ++ [file] }
  | .error _ => .ok { d with deleted := d.deleted ++ [file] }

/-- Total form of `File.delete_file` (the method always returns normally). -/
def delete_file (d : Dir) (file : String) : Dir :=
  match delete_file_exc d file with
  | .ok d' => d'
  | .error _ => d

/-- Embedding of `Directory.directory_exist` with its explicit exception
channel: `try mkdir ... except OSError: pass`. -/
def directory_exist_exc (d : Dir) : Except Unit Dir :=
  match os_mkdir d with
  | .ok d' => .ok d'
  | .error _ => .ok d

/-- Total form of `Directory.directory_exist`. -/
def directory_exist (d : Dir) : Dir :=
  match directory_exist_exc d with
  | .ok d' => d'
  | .error _ => d

/-- Embedding of `File.get_file_names`: `try: return os.listdir(...) except
OSError: pass` — on failure the Python function falls off the end and
returns `None`, modelled as `none`. -/
def get_file_names (d : Dir) : Option (List String) :=
  match os_listdir d with
  | .ok names => some names
  | .error _ => none

/-- Embedding of `File.file_exist` restricted to the sink's directory:
`os.path.exists(path) and os.path.isfile(path)` for the path
`directory + "/" + name`, i.e. membership of the basename in the directory. -/
def file_exist (d : Dir) (name : String) : Bool :=
  name ∈ d.files

/-! ### The time format

`LoggingFile` treats filenames through `datetime.strptime(file, suffix)` and
`datetime.strftime(value, suffix)`.  A `TimeFormat` packages the two
directions for an arbitrary configured `suffix`; timestamps are represented
by naturals ordered chronologically. -/

/-- A filename time format: `parse` embeds `datetime.strptime(·, suffix)`
(`none` standing for `ValueError`), `render` embeds
`datetime.strftime(·, suffix)`. -/
structure TimeFormat where
  parse : String → Option Nat
  render : Nat → String

/-! #### The default format `"%Y-%m-%d"`

A faithful executable model of CPython `_strptime` for this pattern:
`%Y` matches exactly four digits, `%m` one or two digits with value 1..12,
`%d` one or two digits with value 1..31, the whole string must be consumed,
and the `datetime` constructor then validates the day against the month and
leap years.  A timestamp is encoded as `y * 10000 + m * 100 + d`, which is
ordered exactly like the dates it encodes. -/

/-- Split a character list at each `'-'`. -/
def splitDash : List Char → List (List Char)
  | [] => [[]]
  | c :: cs =>
    if c = '-' then [] :: splitDash cs
    else
      match splitDash cs with
      | g :: gs => (c :: g) :: gs
      | [] => [[c]]

/-- Value of a nonempty all-digit character list; `none` otherwise. -/
def parseDigits (cs : List Char) : Option Nat :=
  if cs ≠ [] ∧ cs.all (fun c => c.isDigit) then
    some (cs.foldl (fun acc c => acc * 10 + (c.toNat - 48)) 0)
  else none

/-- Leap-year rule used by `datetime`. -/
def isLeap (y : Nat) : Bool :=
  y % 4 == 0 && (y % 100 != 0 || y % 400 == 0)

/-- Number of days of month `m` in year `y`, as validated by the `datetime`
constructor. -/
def daysInMonth (y m : Nat) : Nat :=
  if m = 2 then (if isLeap y then 29 else 28)
  else if m = 4 ∨ m = 6 ∨ m = 9 ∨ m = 11 then 30
  else 31

/-- The `datetime(y, m, d)` constructor: validates ranges and encodes the
date as a chronologically ordered key. -/
def mkDateKey (y m d : Nat) : Option Nat :=
  if 1 ≤ y ∧ y ≤ 9999 ∧ 1 ≤ m ∧ m ≤ 12 ∧ 1 ≤ d ∧ d ≤ daysInMonth y m then
    some (y * 10000 + m * 100 + d)
  else none

/-- `datetime.strptime(s, "%Y-%m-%d")`:  `none` is `ValueError`. -/
def strptimeYMD (s : String) : Option Nat :=
  match splitDash s.data with
  | [ys, ms, ds] =>
    if ys.length = 4 ∧ 1 ≤ ms.length ∧ ms.length ≤ 2
        ∧ 1 ≤ ds.length ∧ ds.length ≤ 2 then
      match parseDigits ys, parseDigits ms, parseDigits ds with
      | some y, some m, some d => mkDateKey y m d
      | _, _, _ => none
    else none
  | _ => none

/-- The decimal digit character for `n < 10`. -/
def digitChar (n : Nat) : Char :=
  Char.ofNat (48 + n)

/-- Two-digit zero-padded rendering. -/
def pad2 (n : Nat) : List Char :=
  [digitChar (n / 10 % 10), digitChar (n % 10)]

/-- Four-digit zero-padded rendering. -/
def pad4 (n : Nat) : List Char :=
  [digitChar (n / 1000 % 10), digitChar (n / 100 % 10),
   digitChar (n / 10 % 10), digitChar (n % 10)]

/-- `datetime.strftime(·, "%Y-%m-%d")` on an encoded date key. -/
def strftimeYMD (t : Nat) : String :=
  String.mk (pad4 (t / 10000) ++ '-' :: pad2 (t / 100 % 100) ++ '-' :: pad2 (t % 100))

/-- The default configured format `"%Y-%m-%d"`. -/
def YMD : TimeFormat :=
  ⟨strptimeYMD, strftimeYMD⟩

/-! ### `LoggingFile.filename_datetime` and `LoggingFile.file_to_delete` -/

/-- The `for file in file_names` loop of `LoggingFile.filename_datetime`:
collects the timestamps of the names that parse, and deletes each name that
raises `ValueError` as it is encountered. -/
def parseFiles (F : TimeFormat) : Dir → List String → Dir × List Nat
  | d, [] => (d, [])
  | d, f :: fs =>
    match F.parse f with
    | some t =>
      let r := parseFiles F d fs
      (r.1, t :: r.2)
    | none => parseFiles F (delete_file d f) fs

/-- Embedding of `LoggingFile.filename_datetime`: parse all names (deleting
the unparseable ones), sort the timestamps (`dates.sort()`), and re-render
each through the format.  Returns the directory after the side-effecting
deletions together with the sorted rendered list. -/
def filename_datetime (F : TimeFormat) (d : Dir) (file_names : List String) :
    Dir × List String :=
  let r := parseFiles F d file_names
  (r.1, (r.2.insertionSort (· ≤ ·)).map F.render)

/-- Embedding of `LoggingFile.file_to_delete` with `backup_count : Int`
(a Python `int`): list the directory, return early on `None` or an empty
listing, sort the valid names, and if `diff = len(names) - backup_count ≥ 0`
delete `names[0 : diff + 1]`. -/
def file_to_delete (F : TimeFormat) (backup_count : Int) (d : Dir) : Dir :=
  match get_file_names d with
  | none => d
  | some file_names =>
    if file_names = [] then d
    else
      let r := filename_datetime F d file_names
      let diff : Int := (r.2.length : Int) - backup_count
      if 0 ≤ diff then (r.2.take (diff + 1).toNat).foldl delete_file r.1
      else r.1

/-- The sorted valid rendered names a listing gives rise to (the pure value
computed by `filename_datetime`). -/
def sortedValid (F : TimeFormat) (names : List String) : List String :=
  ((names.filterMap F.parse).insertionSort (· ≤ ·)).map F.render

/-- The names `file_to_delete` passes to `delete_file` in its pruning loop,
as a function of the listing: the first `diff + 1` of the sorted rendered
valid names when `diff ≥ 0`, nothing otherwise. -/
def pruneTargets (F : TimeFormat) (backup_count : Int) (names : List String) :
    List String :=
  let diff : Int := ((sortedValid F names).length : Int) - backup_count
  if 0 ≤ diff then (sortedValid F names).take (diff + 1).toNat else []

/-! ### The emit state machines

`TimedRotatingFileHandler.emit` exists in two variants
(`simple_logs/handlers.py` and `meowlogs/handlers.py`).  Both are embedded
as step functions on an explicit handler state, producing a trace of the
filesystem and framework operations performed, plus a flag saying whether an
exception escaped to `emit`'s caller.  Exceptions inside the `try` block are
modelled with an `Except` whose error value carries the state and trace at
the raise point.  An environment says which OS calls fail on this emit. -/

/-- Observable operations of one `emit` call. -/
inductive Op where
  | existsCheck (name : String)
  | prune
  | close
  | openTry (name : String)
  | openF (name : String)
  | writeF (name : String)
  | handleError
deriving DecidableEq

/-- A log record, reduced to the field `emit` inspects. -/
structure Record where
  levelno : Nat
deriving DecidableEq

/-- Which OS calls raise during this emit: `openFails` makes `self._open()`
raise, `writeFails` makes `stream.write` raise. -/
structure FailEnv where
  openFails : Bool
  writeFails : Bool
deriving DecidableEq

/-- Opening a file in append mode creates the directory entry if absent. -/
def addFile (d : Dir) (name : String) : Dir :=
  if name ∈ d.files then d else { d with files := d.files ++ [name] }

/-- State of the meowlogs handler: `level` is `self._level`, `filename` is
`self._filename` (the sink's active path, by basename), `stream` is the open
handle, holding the basename it was opened on (`none` when closed).  Writing
to a handle whose directory entry was removed goes to the unlinked inode and
never re-creates the entry, so `Op.writeF p` with `p ∉ dir.files` is a write
into a stale handle. -/
structure MeowState where
  dir : Dir
  level : Nat
  filename : String
  stream : Option String
deriving DecidableEq

/-- `write_record_to_file`: `fcntl.flock` on a `None` stream raises, as does
`stream.write` when the OS refuses the write; otherwise the record goes to
the handle's file. -/
def meowWrite (env : FailEnv) (s : MeowState) (ops : List Op) :
    Except (MeowState × List Op) (MeowState × List Op) :=
  match s.stream with
  | none => .error (s, ops)
  | some p =>
    if env.writeFails then .error (s, ops) else .ok (s, ops ++ [Op.writeF p])

/-- The `try` block of `meowlogs` `emit`: level filter, candidate filename,
prune when the candidate is not on disk, rollover when the candidate differs
from `self._filename`, then the locked write. -/
def meowEmitTry (F : TimeFormat) (env : FailEnv) (N : Int) (t : Nat)
    (r : Record) (s : MeowState) :
    Except (MeowState × List Op) (MeowState × List Op) :=
  if s.level ≤ r.levelno then
    let name := F.render t
    let d₁ := if file_exist s.dir name then s.dir else file_to_delete F N s.dir
    let ops₁ := if file_exist s.dir name then [Op.existsCheck name]
                else [Op.existsCheck name, Op.prune]
    let s₁ : MeowState := { s with dir := d₁ }
    if s.filename ≠ name then
      let closeOps : List Op := match s₁.stream with
        | some _ => [Op.close]
        | none => []
      let s₂ : MeowState := { s₁ with filename := name, stream := none }
      if env.openFails then .error (s₂, ops₁ ++ closeOps ++ [Op.openTry name])
      else
        let s₃ : MeowState :=
          { s₂ with stream := some name, dir := addFile s₂.dir name }
        meowWrite env s₃ (ops₁ ++ closeOps ++ [Op.openTry name, Op.openF name])
    else
      meowWrite env s₁ ops₁
  else .ok (s, [])

/-- Embedding of `meowlogs` `TimedRotatingFileHandler.emit`: the `try` body
with its single `except Exception: self.handleError(record)`.  The returned
flag says whether an exception escaped to the caller. -/
def meowEmit (F : TimeFormat) (env : FailEnv) (N : Int) (t : Nat)
    (r : Record) (s : MeowState) : (MeowState × List Op) × Bool :=
  match meowEmitTry F env N t r s with
  | .ok (s', ops) => ((s', ops), false)
  | .error (s', ops) => ((s', ops ++ [Op.handleError]), false)

/-- State of the simple_logs handler: `baseFilename` is the active path (by
basename), `stream` the open handle as in `MeowState`. -/
structure SimpleState where
  dir : Dir
  baseFilename : String
  stream : Option String
deriving DecidableEq

/-- `logging.StreamHandler.emit`: its internal `try` catches write failures
(including writing on a closed stream) and reports them through
`handleError`; it never raises. -/
def streamEmit (env : FailEnv) (s : SimpleState) (ops : List Op) :
    SimpleState × List Op :=
  match s.stream with
  | none => (s, ops ++ [Op.handleError])
  | some p =>
    if env.writeFails then (s, ops ++ [Op.handleError])
    else (s, ops ++ [Op.writeF p])

/-- `logging.FileHandler.emit` (the `super().emit(record)` call): reopens
`baseFilename` when the stream is closed — this open is outside any `try`
and can raise — then delegates to `StreamHandler.emit`. -/
def superEmit (env : FailEnv) (s : SimpleState) :
    Except (SimpleState × List Op) (SimpleState × List Op) :=
  match s.stream with
  | some _ => .ok (streamEmit env s [])
  | none =>
    if env.openFails then .error (s, [Op.openTry s.baseFilename])
    else
      let s' : SimpleState :=
        { s with stream := some s.baseFilename,
                 dir := addFile s.dir s.baseFilename }
      .ok (streamEmit env s'
        [Op.openTry s.baseFilename, Op.openF s.baseFilename])

/-- The `try` block of `simple_logs` `emit`: candidate filename; when the
candidate is not on disk, prune and roll over (close, repoint, reopen);
then `super().emit(record)`. -/
def simpleEmitTry (F : TimeFormat) (env : FailEnv) (N : Int) (t : Nat)
    (s : SimpleState) :
    Except (SimpleState × List Op) (SimpleState × List Op) :=
  let name := F.render t
  if file_exist s.dir name then
    match superEmit env s with
    | .ok (s', ops) => .ok (s', Op.existsCheck name :: ops)
    | .error (s', ops) => .error (s', Op.existsCheck name :: ops)
  else
    let d₁ := file_to_delete F N s.dir
    let closeOps : List Op := match s.stream with
      | some _ => [Op.close]
      | none => []
    let s₂ : SimpleState := { dir := d₁, baseFilename := name, stream := none }
    if env.openFails then
      .error (s₂, Op.existsCheck name :: Op.prune :: closeOps ++ [Op.openTry name])
    else
      let s₃ : SimpleState :=
        { s₂ with stream := some name, dir := addFile s₂.dir name }
      match superEmit env s₃ with
      | .ok (s', ops) =>
        .ok (s', Op.existsCheck name :: Op.prune ::
          closeOps ++ [Op.openTry name, Op.openF name] ++ ops)
      | .error (s', ops) =>
        .error (s', Op.existsCheck name :: Op.prune ::
          closeOps ++ [Op.openTry name, Op.openF name] ++ ops)

/-- Embedding of `simple_logs` `TimedRotatingFileHandler.emit`: the `try`
body; on exception the handler runs `self.handleError(record)` and then
calls `super().emit(record)` again, outside any `try`, so a failure of that
second attempt escapes to the caller (flag `true`). -/
def simpleEmit (F : TimeFormat) (env : FailEnv) (N : Int) (t : Nat)
    (s : SimpleState) : (SimpleState × List Op) × Bool :=
  match simpleEmitTry F env N t s with
  | .ok (s', ops) => ((s', ops), false)
  | .error (s', ops) =>
    match superEmit env s' with
    | .ok (s'', ops₂) => ((s'', ops ++ Op.handleError :: ops₂), false)
    | .error (s'', ops₂) => ((s'', ops ++ Op.handleError :: ops₂), true)

/-- Modelled from the spec: level filtering prior to emit for the
simple_logs handler is done by the host logging framework's dispatch, which
the spec (§1) scopes out as an external collaborator — the framework
invokes a handler only when `record.levelno >= handler.level`.  That
dispatch guard is not in the repository's own sources, so it is embedded
here from the spec's words. -/
def dispatchSimple (F : TimeFormat) (env : FailEnv) (N : Int) (t : Nat)
    (handlerLevel : Nat) (r : Record) (s : SimpleState) :
    (SimpleState × List Op) × Bool :=
  if handlerLevel ≤ r.levelno then simpleEmit F env N t s else ((s, []), false)

/-! ### Supporting lemmas -/

/-- Characterization of `delete_file`: the entry goes away unless the OS
refuses, and the call is always recorded in the ghost trace. -/
lemma delete_file_def (d : Dir) (f : String) :
    delete_file d f =
      { d with files := if f ∈ d.locked then d.files else d.files.erase f,
               deleted := d.deleted ++ [f] } := by
  simp only [delete_file, delete_file_exc, os_remove]
  by_cases h1 : f ∈ d.locked
  · simp [h1]
  · by_cases h2 : f ∈ d.files
    · simp [h1, h2]
    · simp [h1, h2, List.erase_of_not_mem h2]

lemma delete_file_readable (d : Dir) (f : String) :
    (delete_file d f).readable = d.readable := by
  rw [delete_file_def]

lemma delete_file_locked (d : Dir) (f : String) :
    (delete_file d f).locked = d.locked := by
  rw [delete_file_def]

lemma delete_file_deleted (d : Dir) (f : String) :
    (delete_file d f).deleted = d.deleted ++ [f] := by
  rw [delete_file_def]

lemma delete_file_files_subset (d : Dir) (f : String) :
    (delete_file d f).files.Subset d.files := by
  rw [delete_file_def]
  dsimp only
  split
  · exact fun x hx => hx
  · exact List.erase_subset f d.files

/-- The parsing loop of `filename_datetime`, split into its pure value (the
parsed timestamps, in listing order) and its side effect (deleting every
name that does not parse, in listing order). -/
lemma parseFiles_eq (F : TimeFormat) (d : Dir) (names : List String) :
    parseFiles F d names =
      ((names.filter (fun f => (F.parse f).isNone)).foldl delete_file d,
       names.filterMap F.parse) := by
  induction names generalizing d with
  | nil => simp [parseFiles]
  | cons f fs ih =>
    cases h : F.parse f with
    | some t =>
      simp [parseFiles, h, ih, List.filter_cons, List.filterMap_cons]
    | none =>
      simp [parseFiles, h, ih, List.filter_cons, List.filterMap_cons]

lemma foldl_delete_deleted (names : List String) (d : Dir) :
    (names.foldl delete_file d).deleted = d.deleted ++ names := by
  induction names generalizing d with
  | nil => simp
  | cons n ns ih => simp [ih, delete_file_deleted]

lemma foldl_delete_readable (names : List String) (d : Dir) :
    (names.foldl delete_file d).readable = d.readable := by
  induction names generalizing d with
  | nil => rfl
  | cons n ns ih => simp [ih, delete_file_readable]

lemma foldl_delete_locked (names : List String) (d : Dir) :
    (names.foldl delete_file d).locked = d.locked := by
  induction names generalizing d with
  | nil => rfl
  | cons n ns ih => simp [ih, delete_file_locked]

lemma foldl_delete_files_subset (names : List String) (d : Dir) :
    (names.foldl delete_file d).files.Subset d.files := by
  induction names generalizing d with
  | nil => exact fun x hx => hx
  | cons n ns ih =>
    exact fun x hx => delete_file_files_subset d n (ih (delete_file d n) hx)

/-- With nothing locked, the pruning loop acts on the entry list as a fold of
`List.erase`. -/
lemma foldl_delete_files (names : List String) (d : Dir) (hl : d.locked = []) :
    (names.foldl delete_file d).files = names.foldl List.erase d.files := by
  induction names generalizing d with
  | nil => rfl
  | cons n ns ih =>
    have h1 : (delete_file d n).locked = [] := by
      rw [delete_file_locked, hl]
    have h2 : (delete_file d n).files = d.files.erase n := by
      rw [delete_file_def]
      simp [hl]
    simp [ih _ h1, h2]

/-- Erasing the elements of a duplicate-free prefix, in order, leaves the
rest of the list. -/
lemma foldl_erase_append (l₁ l₂ : List String) (h : (l₁ ++ l₂).Nodup) :
    l₁.foldl List.erase (l₁ ++ l₂) = l₂ := by
  induction l₁ with
  | nil => simp
  | cons a l₁ ih =>
    simp only [List.cons_append, List.foldl_cons, List.erase_cons_head]
    exact ih (h.of_cons)

lemma foldl_erase_perm (names : List String) {l l' : List String}
    (h : List.Perm l l') :
    List.Perm (names.foldl List.erase l) (names.foldl List.erase l') := by
  induction names generalizing l l' with
  | nil => exact h
  | cons a ns ih => exact ih (h.erase a)

/-- Round-tripping names: mapping `render` then `filterMap parse` is the
identity on a list of timestamps the format round-trips. -/
lemma filterMap_parse_map_render (F : TimeFormat) (ts : List Nat)
    (h : ∀ t ∈ ts, F.parse (F.render t) = some t) :
    (ts.map F.render).filterMap F.parse = ts := by
  induction ts with
  | nil => simp
  | cons t ts ih =>
    simp only [List.map_cons, List.filterMap_cons, h t (by simp)]
    rw [ih (fun x hx => h x (by simp [hx]))]

/-- Characterization of `filename_datetime` through `sortedValid`. -/
lemma filename_datetime_eq (F : TimeFormat) (d : Dir) (names : List String) :
    filename_datetime F d names
      = ((names.filter (fun f => (F.parse f).isNone)).foldl delete_file d,
         sortedValid F names) := by
  unfold filename_datetime sortedValid
  rw [parseFiles_eq]

/-- On a canonical listing (a permutation of the renderings of strictly
increasing, round-tripping timestamps) with nothing locked,
`file_to_delete` deletes exactly the renderings of the `diff + 1` oldest
timestamps (when `diff = M - N ≥ 0`) and leaves the newer entries. -/
theorem file_to_delete_spec (F : TimeFormat) (N : Int) (d : Dir)
    (ts : List Nat)
    (hr : d.readable = true) (hl : d.locked = []) (h0 : d.deleted = [])
    (hperm : List.Perm d.files (ts.map F.render))
    (hs : ts.Sorted (· < ·))
    (hrt : ∀ t ∈ ts, F.parse (F.render t) = some t)
    (hN : 0 ≤ (ts.length : Int) - N) :
    (file_to_delete F N d).deleted
        = (ts.take ((ts.length : Int) - N + 1).toNat).map F.render
      ∧ List.Perm (file_to_delete F N d).files
        ((ts.drop ((ts.length : Int) - N + 1).toNat).map F.render) := by
  have hmem : ∀ f ∈ d.files, ∃ t ∈ ts, F.render t = f := by
    intro f hf
    have : f ∈ ts.map F.render := hperm.mem_iff.mp hf
    simpa using this
  have hvalid : ∀ f ∈ d.files, (F.parse f).isNone ≠ true := by
    intro f hf
    obtain ⟨t, ht, rfl⟩ := hmem f hf
    simp [hrt t ht]
  have hfilter : d.files.filter (fun f => (F.parse f).isNone) = [] :=
    List.filter_eq_nil_iff.mpr hvalid
  have hsorted_le : ts.Sorted (· ≤ ·) := hs.imp le_of_lt
  have hnodup_ts : ts.Nodup := hs.imp ne_of_lt
  have hinj : ∀ x ∈ ts, ∀ y ∈ ts, F.render x = F.render y → x = y := by
    intro x hx y hy hxy
    have : some x = some y := by rw [← hrt x hx, ← hrt y hy, hxy]
    exact Option.some.inj this
  have hnodup_map : (ts.map F.render).Nodup := List.Nodup.map_on hinj hnodup_ts
  have hsort_eq :
      (d.files.filterMap F.parse).insertionSort (· ≤ ·) = ts := by
    have h1 : List.Perm (d.files.filterMap F.parse) ts := by
      have := hperm.filterMap F.parse
      rwa [filterMap_parse_map_render F ts hrt] at this
    exact List.eq_of_perm_of_sorted
      ((List.perm_insertionSort _ _).trans h1)
      (List.sorted_insertionSort _ _) hsorted_le
  rcases heq : d.files with _ | ⟨f, fs⟩
  · -- empty listing: early return, and ts is empty too
    have hts : ts = [] := by
      have : List.Perm ([] : List String) (ts.map F.render) := heq ▸ hperm
      cases hmap : ts.map F.render with
      | nil => exact List.map_eq_nil_iff.mp hmap
      | cons a l =>
        rw [hmap] at this
        exact absurd this.symm (by simp)
    subst hts
    simp [file_to_delete, get_file_names, os_listdir, hr, heq, h0]
  · -- nonempty listing
    have hne : d.files ≠ [] := by rw [heq]; exact List.cons_ne_nil f fs
    have hmain :
        file_to_delete F N d
          = ((ts.take ((ts.length : Int) - N + 1).toNat).map F.render).foldl
              delete_file d := by
      unfold file_to_delete
      rw [show get_file_names d = some d.files by
        simp [get_file_names, os_listdir, hr]]
      simp only [hne, if_neg (by exact hne)]
      unfold filename_datetime
      rw [parseFiles_eq]
      simp only [hfilter, List.foldl_nil, hsort_eq]
      rw [List.length_map, if_pos hN, List.map_take]
      simp
    rw [hmain]
    constructor
    · rw [foldl_delete_deleted, h0, List.nil_append]
    · rw [foldl_delete_files _ _ hl]
      have hsplit : ts.map F.render
          = (ts.take ((ts.length : Int) - N + 1).toNat).map F.render
            ++ (ts.drop ((ts.length : Int) - N + 1).toNat).map F.render := by
        rw [← List.map_append, List.take_append_drop]
      have hperm2 :
          List.Perm
            (((ts.take ((ts.length : Int) - N + 1).toNat).map F.render).foldl
              List.erase d.files)
            (((ts.take ((ts.length : Int) - N + 1).toNat).map F.render).foldl
              List.erase (ts.map F.render)) :=
        foldl_erase_perm _ hperm
      refine hperm2.trans ?_
      rw [hsplit, foldl_erase_append _ _ (by rw [← hsplit]; exact hnodup_map)]

/-- Boolean round-trip check for one name: if it parses, its parsed
timestamp renders to a name that parses back to the same timestamp. -/
def roundtripsB (F : TimeFormat) (f : String) : Bool :=
  match F.parse f with
  | some t => F.parse (F.render t) == some t
  | none => true

/-! ### Claims -/

/-- Claim C1: for a directory listing holding M valid names (a canonical
listing: a permutation of the renderings of M strictly increasing
round-tripping timestamps) and backup count N ≥ 0 with M - N ≥ 0,
`file_to_delete` deletes exactly the M - N + 1 chronologically oldest valid
names and no others; the newer names remain.  In particular with files
2023-11-01..05 and N = 3, exactly 01, 02, 03 are deleted (see the
witness). -/
theorem C1_prune_deletes_oldest_diff_plus_one (F : TimeFormat) (N : Int)
    (d : Dir) (ts : List Nat)
    (hr : d.readable = true) (hl : d.locked = []) (h0 : d.deleted = [])
    (hperm : List.Perm d.files (ts.map F.render))
    (hs : ts.Sorted (· < ·))
    (hrt : ∀ t ∈ ts, F.parse (F.render t) = some t)
    (_hN0 : 0 ≤ N)
    (hN : 0 ≤ (ts.length : Int) - N) :
    (file_to_delete F N d).deleted
        = (ts.take ((ts.length : Int) - N + 1).toNat).map F.render
      ∧ List.Perm (file_to_delete F N d).files
        ((ts.drop ((ts.length : Int) - N + 1).toNat).map F.render) :=
  file_to_delete_spec F N d ts hr hl h0 hperm hs hrt hN

/-- Witness for C1 at Scenario B: files 2023-11-01..05, N = 3 — exactly
2023-11-01, 2023-11-02, 2023-11-03 are deleted and 04, 05 remain. -/
theorem C1_prune_deletes_oldest_diff_plus_one_witness :
    (file_to_delete YMD 3
      ⟨true, false, ["2023-11-01", "2023-11-02", "2023-11-03", "2023-11-04",
        "2023-11-05"], [], []⟩).deleted
        = ["2023-11-01", "2023-11-02", "2023-11-03"]
      ∧ List.Perm (file_to_delete YMD 3
        ⟨true, false, ["2023-11-01", "2023-11-02", "2023-11-03", "2023-11-04",
          "2023-11-05"], [], []⟩).files
        ["2023-11-04", "2023-11-05"] := by
  have h := C1_prune_deletes_oldest_diff_plus_one YMD 3
    ⟨true, false, ["2023-11-01", "2023-11-02", "2023-11-03", "2023-11-04",
      "2023-11-05"], [], []⟩
    [20231101, 20231102, 20231103, 20231104, 20231105]
    rfl rfl rfl (by decide) (by decide) (by decide) (by decide) (by decide)
  exact ⟨h.1.trans (by decide), h.2.trans (by decide)⟩

/-- Counterexample to Claim C2 (spec property P1) at Scenario B: with
M = 5 valid files 2023-11-01..05 and N = 3, P1 predicts that exactly
M - N = 2 oldest files are removed and the newest 3 remain; the code
removes 3 and leaves 2. -/
theorem C2_counterexample_P1_fails_at_scenario_B :
    ¬ ((file_to_delete YMD 3
        ⟨true, false, ["2023-11-01", "2023-11-02", "2023-11-03", "2023-11-04",
          "2023-11-05"], [], []⟩).deleted
          = ["2023-11-01", "2023-11-02"]
      ∧ (file_to_delete YMD 3
        ⟨true, false, ["2023-11-01", "2023-11-02", "2023-11-03", "2023-11-04",
          "2023-11-05"], [], []⟩).files
          = ["2023-11-03", "2023-11-04", "2023-11-05"]) := by
  decide

/-- Claim C2 as amended: after `file_to_delete` with backup count N ≥ 0 and
M ≥ N + 1 valid files present, exactly the M - N + 1 oldest files are
removed (one more than P1 states) and the newest N - 1 remain. -/
theorem C2_amended_prune_removes_M_sub_N_add_one (F : TimeFormat) (N : Int)
    (d : Dir) (ts : List Nat)
    (hr : d.readable = true) (hl : d.locked = []) (h0 : d.deleted = [])
    (hperm : List.Perm d.files (ts.map F.render))
    (hs : ts.Sorted (· < ·))
    (hrt : ∀ t ∈ ts, F.parse (F.render t) = some t)
    (hN0 : 0 ≤ N)
    (hN1 : N + 1 ≤ (ts.length : Int)) :
    (file_to_delete F N d).deleted
        = (ts.take (ts.length - N.toNat + 1)).map F.render
      ∧ List.Perm (file_to_delete F N d).files
        ((ts.drop (ts.length - N.toNat + 1)).map F.render)
      ∧ (ts.drop (ts.length - N.toNat + 1)).length = N.toNat - 1 := by
  have hN : 0 ≤ (ts.length : Int) - N := by omega
  have hk : ((ts.length : Int) - N + 1).toNat = ts.length - N.toNat + 1 := by
    omega
  have h := file_to_delete_spec F N d ts hr hl h0 hperm hs hrt hN
  rw [hk] at h
  refine ⟨h.1, h.2, ?_⟩
  rw [List.length_drop]
  omega

/-- Witness for the amended C2 at Scenario B (M = 5, N = 3): 3 files
removed, the newest N - 1 = 2 remain. -/
theorem C2_amended_prune_removes_M_sub_N_add_one_witness :
    (file_to_delete YMD 3
      ⟨true, false, ["2023-11-01", "2023-11-02", "2023-11-03", "2023-11-04",
        "2023-11-05"], [], []⟩).deleted
        = ["2023-11-01", "2023-11-02", "2023-11-03"]
      ∧ List.Perm (file_to_delete YMD 3
        ⟨true, false, ["2023-11-01", "2023-11-02", "2023-11-03", "2023-11-04",
          "2023-11-05"], [], []⟩).files
        ["2023-11-04", "2023-11-05"]
      ∧ (2 : Nat) = (3 : Int).toNat - 1 := by
  have h := C2_amended_prune_removes_M_sub_N_add_one YMD 3
    ⟨true, false, ["2023-11-01", "2023-11-02", "2023-11-03", "2023-11-04",
      "2023-11-05"], [], []⟩
    [20231101, 20231102, 20231103, 20231104, 20231105]
    rfl rfl rfl (by decide) (by decide) (by decide) (by decide) (by decide)
  exact ⟨h.1.trans (by decide), h.2.1.trans (by decide), by decide⟩

/-- Claim C3: `filename_datetime` returns exactly the parseable subset of
the names, sorted ascending by parsed timestamp and re-rendered through the
format; no unparseable name appears in the output, and every unparseable
name is deleted as a side effect of the call (policy variant A). -/
theorem C3_parse_and_sort_deletes_invalid (F : TimeFormat) (d : Dir)
    (names : List String)
    (h0 : d.deleted = [])
    (hrt : ∀ f ∈ names, roundtripsB F f = true) :
    (filename_datetime F d names).2 = sortedValid F names
      ∧ ((names.filterMap F.parse).insertionSort (· ≤ ·)).Sorted (· ≤ ·)
      ∧ List.Perm ((names.filterMap F.parse).insertionSort (· ≤ ·))
          (names.filterMap F.parse)
      ∧ (filename_datetime F d names).1.deleted
          = names.filter (fun f => (F.parse f).isNone)
      ∧ ∀ g ∈ (filename_datetime F d names).2, (F.parse g).isSome := by
  refine ⟨?_, List.sorted_insertionSort _ _, List.perm_insertionSort _ _,
    ?_, ?_⟩
  · rw [filename_datetime_eq]
  · rw [filename_datetime_eq]
    dsimp only
    rw [foldl_delete_deleted, h0, List.nil_append]
  · intro g hg
    rw [filename_datetime_eq] at hg
    dsimp only at hg
    unfold sortedValid at hg
    simp only [List.mem_map] at hg
    obtain ⟨t, ht, rfl⟩ := hg
    have ht' : t ∈ names.filterMap F.parse :=
      (List.perm_insertionSort _ _).mem_iff.mp ht
    obtain ⟨f, hf, hpf⟩ := List.mem_filterMap.mp ht'
    have := hrt f hf
    unfold roundtripsB at this
    rw [hpf] at this
    simp only [beq_iff_eq] at this
    rw [this]
    rfl

/-- Witness for C3 at Scenario C: names 2023-01-01, not-a-date, 2023-01-02
give the sorted valid output and delete the malformed name. -/
theorem C3_parse_and_sort_deletes_invalid_witness :
    (filename_datetime YMD
        ⟨true, false, ["2023-01-01", "not-a-date", "2023-01-02"], [], []⟩
        ["2023-01-01", "not-a-date", "2023-01-02"]).2
      = ["2023-01-01", "2023-01-02"]
      ∧ (filename_datetime YMD
          ⟨true, false, ["2023-01-01", "not-a-date", "2023-01-02"], [], []⟩
          ["2023-01-01", "not-a-date", "2023-01-02"]).1.deleted
        = ["not-a-date"] := by
  have h := C3_parse_and_sort_deletes_invalid YMD
    ⟨true, false, ["2023-01-01", "not-a-date", "2023-01-02"], [], []⟩
    ["2023-01-01", "not-a-date", "2023-01-02"] rfl (by decide)
  exact ⟨h.1.trans (by decide), h.2.2.2.1.trans (by decide)⟩

/-- Counterexample to Claim C7: on an unreadable directory containing an
entry, `get_file_names` returns `none` (the Python function returns `None`),
which is a distinct null value and not the empty sequence. -/
theorem C7_counterexample_listdir_returns_none :
    get_file_names ⟨false, false, ["2023-11-01"], [], []⟩ = none
      ∧ get_file_names ⟨false, false, ["2023-11-01"], [], []⟩
          ≠ some ([] : List String) := by
  decide

/-- Claim C7 as amended: `get_file_names` never raises; it returns `None`
(not an empty list and not an error) when the directory is unreadable or
missing, and the directory's entries otherwise. -/
theorem C7_amended_listdir_none_on_error (d : Dir) :
    (d.readable = true → get_file_names d = some d.files)
      ∧ (d.readable = false → get_file_names d = none) := by
  constructor <;> intro h <;> simp [get_file_names, os_listdir, h]

/-- Witness for the amended C7 on a readable and on an unreadable
directory. -/
theorem C7_amended_listdir_none_on_error_witness :
    get_file_names ⟨true, false, ["2023-11-01"], [], []⟩
        = some ["2023-11-01"]
      ∧ get_file_names ⟨false, false, ["2023-11-01"], [], []⟩ = none := by
  exact ⟨(C7_amended_listdir_none_on_error
      ⟨true, false, ["2023-11-01"], [], []⟩).1 rfl,
    (C7_amended_listdir_none_on_error
      ⟨false, false, ["2023-11-01"], [], []⟩).2 rfl⟩

/-- Claim C8: no RetentionStore operation raises to its caller — for every
directory state (including ones where `mkdir` fails for permission or
path-type reasons) `directory_exist` returns normally, and for every file
(absent, or refused by the OS) `delete_file` returns normally. -/
theorem C8_retention_ops_never_raise (d : Dir) (f : String) :
    directory_exist_exc d = .ok (directory_exist d)
      ∧ delete_file_exc d f = .ok (delete_file d f) := by
  constructor
  · unfold directory_exist directory_exist_exc os_mkdir
    by_cases h : d.mkdirErr = true <;> simp [h]
  · unfold delete_file delete_file_exc os_remove
    by_cases h1 : f ∈ d.locked
    · simp [h1]
    · by_cases h2 : f ∈ d.files <;> simp [h1, h2]

/-- Claim C10: during pruning the names passed to `delete_file` are the
re-renderings of the parsed timestamps (first conjunct: the deletion trace
is the unparseable raw names followed by `pruneTargets`, a prefix of the
rendered sorted valid names); a raw name whose canonical rendering differs
is never itself deleted by pruning (second conjunct: "2023-1-1" is not in
the trace and survives while its rendering "2023-01-01" is targeted); and
two distinct raw names parsing to the same timestamp each contribute one
identical entry to the sorted output (third conjunct). -/
theorem C10_prune_targets_are_renderings :
    (∀ (F : TimeFormat) (N : Int) (d : Dir),
      d.readable = true → d.deleted = [] →
      (file_to_delete F N d).deleted
        = d.files.filter (fun f => (F.parse f).isNone)
            ++ pruneTargets F N d.files)
      ∧ ((file_to_delete YMD 0
            ⟨true, false, ["2023-1-1", "2023-01-02"], [], []⟩).deleted
          = ["2023-01-01", "2023-01-02"]
        ∧ "2023-1-1" ∉ (file_to_delete YMD 0
            ⟨true, false, ["2023-1-1", "2023-01-02"], [], []⟩).deleted
        ∧ "2023-1-1" ∈ (file_to_delete YMD 0
            ⟨true, false, ["2023-1-1", "2023-01-02"], [], []⟩).files)
      ∧ (filename_datetime YMD ⟨true, false, [], [], []⟩
          ["2023-1-1", "2023-01-01"]).2
        = ["2023-01-01", "2023-01-01"] := by
  refine ⟨?_, by decide, by decide⟩
  intro F N d hr h0
  unfold file_to_delete
  rw [show get_file_names d = some d.files by
    simp [get_file_names, os_listdir, hr]]
  by_cases hfe : d.files = []
  · simp [hfe, h0, pruneTargets, sortedValid]
  · simp only [if_neg hfe]
    rw [filename_datetime_eq]
    unfold pruneTargets
    dsimp only
    split_ifs with h
    · rw [foldl_delete_deleted, foldl_delete_deleted, h0, List.nil_append]
    · rw [foldl_delete_deleted, h0, List.nil_append, List.append_nil]

/-- Witness for C10: the first conjunct applied at Scenario B. -/
theorem C10_prune_targets_are_renderings_witness :
    (file_to_delete YMD 3
      ⟨true, false, ["2023-11-01", "2023-11-02", "2023-11-03", "2023-11-04",
        "2023-11-05"], [], []⟩).deleted
      = ["2023-11-01", "2023-11-02", "2023-11-03"] := by
  have h := C10_prune_targets_are_renderings.1 YMD 3
    ⟨true, false, ["2023-11-01", "2023-11-02", "2023-11-03", "2023-11-04",
      "2023-11-05"], [], []⟩ rfl rfl
  exact h.trans (by decide)

/-- Pruning only removes entries: the directory after `file_to_delete`
holds a subset of the original entries. -/
lemma file_to_delete_files_subset (F : TimeFormat) (N : Int) (d : Dir) :
    (file_to_delete F N d).files.Subset d.files := by
  intro x hx
  revert hx
  unfold file_to_delete
  cases hg : get_file_names d with
  | none => exact fun hx => hx
  | some names =>
    dsimp only
    by_cases hne : names = []
    · simp only [hne, if_pos rfl]
      exact fun hx => hx
    · rw [if_neg hne, filename_datetime_eq]
      dsimp only
      split_ifs with h
      · intro hx
        exact foldl_delete_files_subset _ _ (foldl_delete_files_subset _ _ hx)
      · intro hx
        exact foldl_delete_files_subset _ _ hx

/-- Opening a name always leaves it present in the directory. -/
lemma mem_addFile (d : Dir) (n : String) : n ∈ (addFile d n).files := by
  unfold addFile
  split_ifs with h
  · exact h
  · simp

/-- Operations that constitute a rollover (closing or opening a handle). -/
def isRollOp : Op → Bool
  | .close => true
  | .openTry _ => true
  | .openF _ => true
  | _ => false

/-- Counterexample to Claim C4: in the simple_logs handler, when the
candidate filename ("2023-10-02") differs from the active path
("2023-10-01") but already exists on disk, no rollover (and no pruning)
happens — the record is written to the old file — contradicting "rollover
is performed if and only if the candidate differs from the active path". -/
theorem C4_counterexample_simple_no_rollover_when_candidate_exists :
    strftimeYMD 20231002 ≠ "2023-10-01"
      ∧ (simpleEmit YMD ⟨false, false⟩ 14 20231002
          ⟨⟨true, false, ["2023-10-01", "2023-10-02"], [], []⟩,
            "2023-10-01", some "2023-10-01"⟩).1.2
        = [Op.existsCheck "2023-10-02", Op.writeF "2023-10-01"]
      ∧ ((simpleEmit YMD ⟨false, false⟩ 14 20231002
          ⟨⟨true, false, ["2023-10-01", "2023-10-02"], [], []⟩,
            "2023-10-01", some "2023-10-01"⟩).1.2.filter isRollOp) = [] := by
  decide

/-- Claim C4 as amended: in both handlers pruning is invoked if and only if
the candidate filename does not exist on disk, and pruning (when it
happens) precedes any rollover; the rollover condition differs — the
meowlogs handler rolls over if and only if the candidate differs from
`self._filename`, while the simple_logs handler rolls over if and only if
the candidate does not exist on disk (same guard as pruning).  Both facts
are stated as full trace equations of a failure-free emit. -/
theorem C4_amended_prune_and_rollover_guards :
    (∀ (F : TimeFormat) (N : Int) (t : Nat) (r : Record) (s : MeowState)
        (p : String),
      s.level ≤ r.levelno → s.stream = some p →
      (meowEmit F ⟨false, false⟩ N t r s).1.2
        = [Op.existsCheck (F.render t)]
          ++ (if F.render t ∈ s.dir.files then [] else [Op.prune])
          ++ (if s.filename = F.render t then []
              else [Op.close, Op.openTry (F.render t), Op.openF (F.render t)])
          ++ [Op.writeF (if s.filename = F.render t then p else F.render t)])
      ∧ (∀ (F : TimeFormat) (N : Int) (t : Nat) (s : SimpleState)
          (p : String),
        s.stream = some p →
        (simpleEmit F ⟨false, false⟩ N t s).1.2
          = if F.render t ∈ s.dir.files then
              [Op.existsCheck (F.render t), Op.writeF p]
            else
              [Op.existsCheck (F.render t), Op.prune, Op.close,
               Op.openTry (F.render t), Op.openF (F.render t),
               Op.writeF (F.render t)]) := by
  constructor
  · intro F N t r s p hlev hp
    by_cases hex : F.render t ∈ s.dir.files
      <;> by_cases hfn : s.filename = F.render t
      <;> simp [meowEmit, meowEmitTry, meowWrite, file_exist, hlev, hp,
        hex, hfn]
  · intro F N t s p hp
    by_cases hex : F.render t ∈ s.dir.files
      <;> simp [simpleEmit, simpleEmitTry, superEmit, streamEmit, file_exist,
        hp, hex]

/-- Witness for the amended C4: a failure-free emit in each handler with
the candidate absent and the bucket changed. -/
theorem C4_amended_prune_and_rollover_guards_witness :
    (meowEmit YMD ⟨false, false⟩ 14 20231002 ⟨20⟩
        ⟨⟨true, false, [], [], []⟩, 20, "2023-10-01",
          some "2023-10-01"⟩).1.2
      = [Op.existsCheck "2023-10-02", Op.prune, Op.close,
         Op.openTry "2023-10-02", Op.openF "2023-10-02",
         Op.writeF "2023-10-02"]
      ∧ (simpleEmit YMD ⟨false, false⟩ 14 20231002
          ⟨⟨true, false, [], [], []⟩, "2023-10-01",
            some "2023-10-01"⟩).1.2
        = [Op.existsCheck "2023-10-02", Op.prune, Op.close,
           Op.openTry "2023-10-02", Op.openF "2023-10-02",
           Op.writeF "2023-10-02"] := by
  constructor
  · have h := C4_amended_prune_and_rollover_guards.1 YMD 14 20231002 ⟨20⟩
      ⟨⟨true, false, [], [], []⟩, 20, "2023-10-01", some "2023-10-01"⟩
      "2023-10-01" (by decide) rfl
    exact h.trans (by decide)
  · have h := C4_amended_prune_and_rollover_guards.2 YMD 14 20231002
      ⟨⟨true, false, [], [], []⟩, "2023-10-01", some "2023-10-01"⟩
      "2023-10-01" rfl
    exact h.trans (by decide)

/-- Claim C5: a record below the configured minimum level causes no
filesystem operation at all — the meowlogs emit returns with the state
untouched and an empty trace, and (per spec §1, level filtering prior to
emit being the host framework's) the framework dispatch never reaches the
simple_logs emit for such a record. -/
theorem C5_below_level_no_io :
    (∀ (F : TimeFormat) (env : FailEnv) (N : Int) (t : Nat) (r : Record)
        (s : MeowState),
      r.levelno < s.level → meowEmit F env N t r s = ((s, []), false))
      ∧ (∀ (F : TimeFormat) (env : FailEnv) (N : Int) (t : Nat) (L : Nat)
          (r : Record) (s : SimpleState),
        r.levelno < L → dispatchSimple F env N t L r s = ((s, []), false)) := by
  constructor
  · intro F env N t r s h
    unfold meowEmit meowEmitTry
    rw [if_neg (by omega : ¬ s.level ≤ r.levelno)]
  · intro F env N t L r s h
    unfold dispatchSimple
    rw [if_neg (by omega : ¬ L ≤ r.levelno)]

/-- Witness for C5: a DEBUG-level record against an INFO-level sink. -/
theorem C5_below_level_no_io_witness :
    meowEmit YMD ⟨false, false⟩ 14 20231001 ⟨10⟩
        ⟨⟨true, false, ["2023-10-01"], [], []⟩, 20, "2023-10-01",
          some "2023-10-01"⟩
      = ((⟨⟨true, false, ["2023-10-01"], [], []⟩, 20, "2023-10-01",
          some "2023-10-01"⟩, []), false)
      ∧ dispatchSimple YMD ⟨false, false⟩ 14 20231001 20 ⟨10⟩
          ⟨⟨true, false, ["2023-10-01"], [], []⟩, "2023-10-01",
            some "2023-10-01"⟩
        = ((⟨⟨true, false, ["2023-10-01"], [], []⟩, "2023-10-01",
            some "2023-10-01"⟩, []), false) :=
  ⟨C5_below_level_no_io.1 YMD ⟨false, false⟩ 14 20231001 ⟨10⟩
      ⟨⟨true, false, ["2023-10-01"], [], []⟩, 20, "2023-10-01",
        some "2023-10-01"⟩ (by decide),
    C5_below_level_no_io.2 YMD ⟨false, false⟩ 14 20231001 20 ⟨10⟩
      ⟨⟨true, false, ["2023-10-01"], [], []⟩, "2023-10-01",
        some "2023-10-01"⟩ (by decide)⟩

/-- Counterexample to Claim C6: in the simple_logs handler, when the
rollover's reopen raises, the `except` block runs `handleError` and then
calls `super().emit(record)` again — a retry, visible as the second
`openTry` after `handleError` — and that second attempt's failure escapes
to the caller (flag `true`), contradicting "never propagates ... does not
retry". -/
theorem C6_counterexample_simple_retries_and_propagates :
    (simpleEmit YMD ⟨true, false⟩ 0 20231002
        ⟨⟨true, false, [], [], []⟩, "2023-10-01", some "2023-10-01"⟩).2
      = true
      ∧ (simpleEmit YMD ⟨true, false⟩ 0 20231002
          ⟨⟨true, false, [], [], []⟩, "2023-10-01", some "2023-10-01"⟩).1.2
        = [Op.existsCheck "2023-10-02", Op.prune, Op.close,
           Op.openTry "2023-10-02", Op.handleError,
           Op.openTry "2023-10-02"] := by
  decide

/-- Claim C6 as amended: the meowlogs emit catches every exception at its
outer boundary, reports it only through `handleError` (which ends the call
— nothing follows it in the trace) and never propagates; the simple_logs
emit also catches and reports through `handleError`, but then retries the
write (`super().emit(record)`) outside the protected region, so when the
retry's reopen also fails the exception propagates to the caller. -/
theorem C6_amended_outer_catch_meow_simple_retry :
    (∀ (F : TimeFormat) (env : FailEnv) (N : Int) (t : Nat) (r : Record)
        (s s' : MeowState) (ops : List Op),
      meowEmitTry F env N t r s = .error (s', ops) →
      meowEmit F env N t r s = ((s', ops ++ [Op.handleError]), false))
      ∧ (∀ (F : TimeFormat) (env : FailEnv) (N : Int) (t : Nat) (r : Record)
          (s : MeowState), (meowEmit F env N t r s).2 = false)
      ∧ (∀ (F : TimeFormat) (N : Int) (t : Nat) (s : SimpleState)
          (p : String),
        s.stream = some p → F.render t ∉ s.dir.files →
        (simpleEmit F ⟨true, false⟩ N t s).1.2
          = [Op.existsCheck (F.render t), Op.prune, Op.close,
             Op.openTry (F.render t), Op.handleError,
             Op.openTry (F.render t)]
          ∧ (simpleEmit F ⟨true, false⟩ N t s).2 = true) := by
  refine ⟨?_, ?_, ?_⟩
  · intro F env N t r s s' ops h
    unfold meowEmit
    rw [h]
  · intro F env N t r s
    unfold meowEmit
    split <;> rfl
  · intro F N t s p hp hex
    constructor <;>
      simp [simpleEmit, simpleEmitTry, superEmit, file_exist, hp, hex]

/-- Witness for the amended C6: the simple_logs conjunct at a concrete
state with a failing reopen. -/
theorem C6_amended_outer_catch_meow_simple_retry_witness :
    (simpleEmit YMD ⟨true, false⟩ 14 20231002
        ⟨⟨true, false, ["2023-09-30"], [], []⟩, "2023-09-30",
          some "2023-09-30"⟩).1.2
      = [Op.existsCheck "2023-10-02", Op.prune, Op.close,
         Op.openTry "2023-10-02", Op.handleError, Op.openTry "2023-10-02"]
      ∧ (simpleEmit YMD ⟨true, false⟩ 14 20231002
          ⟨⟨true, false, ["2023-09-30"], [], []⟩, "2023-09-30",
            some "2023-09-30"⟩).2 = true := by
  have h := C6_amended_outer_catch_meow_simple_retry.2.2 YMD 14 20231002
    ⟨⟨true, false, ["2023-09-30"], [], []⟩, "2023-09-30",
      some "2023-09-30"⟩ "2023-09-30" rfl (by decide)
  exact ⟨h.1.trans (by decide), h.2⟩

/-- Counterexample to Claim C9: in the meowlogs handler, when the candidate
filename equals the active path but the file was deleted externally, emit
prunes but performs no rollover — the record is written through the stale
handle (`Op.writeF` to a name absent from the directory) and the file is
not re-created. -/
theorem C9_counterexample_meow_stale_handle_same_bucket :
    (meowEmit YMD ⟨false, false⟩ 14 20231001 ⟨20⟩
        ⟨⟨true, false, [], [], []⟩, 20, "2023-10-01",
          some "2023-10-01"⟩).1.2
      = [Op.existsCheck "2023-10-01", Op.prune, Op.writeF "2023-10-01"]
      ∧ "2023-10-01" ∉ (meowEmit YMD ⟨false, false⟩ 14 20231001 ⟨20⟩
          ⟨⟨true, false, [], [], []⟩, 20, "2023-10-01",
            some "2023-10-01"⟩).1.1.dir.files
      ∧ ((meowEmit YMD ⟨false, false⟩ 14 20231001 ⟨20⟩
          ⟨⟨true, false, [], [], []⟩, 20, "2023-10-01",
            some "2023-10-01"⟩).1.2.filter isRollOp) = [] := by
  decide

/-- Claim C9 as amended: the simple_logs handler recovers from an
externally deleted file — whenever the candidate is absent (even when it
equals the active path) a failure-free emit re-creates and opens it and
writes the record into it; the meowlogs handler re-creates the file only
when the bucket also changed (`self._filename ≠ candidate`), and in the
same-bucket case writes the record into the stale handle, leaving the file
absent. -/
theorem C9_amended_recovery_simple_yes_meow_only_on_bucket_change :
    (∀ (F : TimeFormat) (N : Int) (t : Nat) (s : SimpleState) (p : String),
      s.stream = some p → F.render t ∉ s.dir.files →
      Op.openF (F.render t) ∈ (simpleEmit F ⟨false, false⟩ N t s).1.2
        ∧ Op.writeF (F.render t) ∈ (simpleEmit F ⟨false, false⟩ N t s).1.2
        ∧ F.render t ∈ (simpleEmit F ⟨false, false⟩ N t s).1.1.dir.files
        ∧ (simpleEmit F ⟨false, false⟩ N t s).1.1.stream
            = some (F.render t))
      ∧ (∀ (F : TimeFormat) (N : Int) (t : Nat) (r : Record) (s : MeowState)
          (p : String),
        s.level ≤ r.levelno → s.stream = some p →
        F.render t ∉ s.dir.files → s.filename ≠ F.render t →
        Op.openF (F.render t) ∈ (meowEmit F ⟨false, false⟩ N t r s).1.2
          ∧ F.render t ∈ (meowEmit F ⟨false, false⟩ N t r s).1.1.dir.files)
      ∧ (∀ (F : TimeFormat) (N : Int) (t : Nat) (r : Record) (s : MeowState)
          (p : String),
        s.level ≤ r.levelno → s.stream = some p →
        F.render t ∉ s.dir.files → s.filename = F.render t →
        (meowEmit F ⟨false, false⟩ N t r s).1.2
            = [Op.existsCheck (F.render t), Op.prune, Op.writeF p]
          ∧ F.render t ∉ (meowEmit F ⟨false, false⟩ N t r s).1.1.dir.files) := by
  refine ⟨?_, ?_, ?_⟩
  · intro F N t s p hp hex
    refine ⟨?_, ?_, ?_, ?_⟩ <;>
      simp [simpleEmit, simpleEmitTry, superEmit, streamEmit, file_exist,
        hp, hex, mem_addFile]
  · intro F N t r s p hlev hp hex hfn
    refine ⟨?_, ?_⟩ <;>
      simp [meowEmit, meowEmitTry, meowWrite, file_exist, hlev, hp,
        hex, hfn, mem_addFile]
  · intro F N t r s p hlev hp hex hfn
    constructor
    · simp [meowEmit, meowEmitTry, meowWrite, file_exist, hlev, hp, hex, hfn]
    · intro hmem
      apply hex
      have h2 : (meowEmit F ⟨false, false⟩ N t r s).1.1.dir
          = file_to_delete F N s.dir := by
        simp [meowEmit, meowEmitTry, meowWrite, file_exist, hlev, hp, hex,
          hfn]
      rw [h2] at hmem
      exact file_to_delete_files_subset F N s.dir hmem

/-- Witness for the amended C9: both recovery conjuncts at concrete
states. -/
theorem C9_amended_recovery_witness :
    ("2023-10-01" ∈ (simpleEmit YMD ⟨false, false⟩ 14 20231001
        ⟨⟨true, false, [], [], []⟩, "2023-10-01",
          some "2023-10-01"⟩).1.1.dir.files)
      ∧ ("2023-10-02" ∈ (meowEmit YMD ⟨false, false⟩ 14 20231002 ⟨20⟩
          ⟨⟨true, false, [], [], []⟩, 20, "2023-10-01",
            some "2023-10-01"⟩).1.1.dir.files) := by
  constructor
  · exact (C9_amended_recovery_simple_yes_meow_only_on_bucket_change.1
      YMD 14 20231001
      ⟨⟨true, false, [], [], []⟩, "2023-10-01", some "2023-10-01"⟩
      "2023-10-01" rfl (by decide)).2.2.1
  · exact (C9_amended_recovery_simple_yes_meow_only_on_bucket_change.2.1
      YMD 14 20231002 ⟨20⟩
      ⟨⟨true, false, [], [], []⟩, 20, "2023-10-01", some "2023-10-01"⟩
      "2023-10-01" (by decide) rfl (by decide) (by decide)).2

end CatLogger
